import Mathlib

/-!
Verification of the session and token authentication broker of
`middlewared/plugins/auth.py` (together with the credential classes of
`middlewared/auth.py`).

The Python code is shallowly embedded:

* monotonic time (`time.monotonic()`) is an explicit `Nat` parameter `now`
  threaded through every operation;
* the process-wide mutable registries (`TokenManager.tokens`,
  `SessionManager.sessions`) become explicit state that every operation takes
  and returns;
* Python's `None` becomes `Option.none`, dict truthiness of the attribute
  mapping becomes list non-emptiness;
* the connection ("app") objects become entries of a connection map keyed by
  `session_id`, since a session and its app share the same id.
-/

namespace Middleware

/-- Transport-level origin of a connection: `UnixSocketOrigin` carries the peer
uid, `TCPIPOrigin` carries the peer address and port
(`middlewared/utils/origin.py`, referenced by the auth plugin). -/
inductive Origin : Type where
  | unix (uid : Nat)
  | tcp (addr : String) (port : Nat)
deriving DecidableEq, Repr

/-- The `isinstance(origin, type(token.match_origin))` check of
`TokenManager.get`: both origins are of the same Python class (same kind). -/
def originKindEq : Origin → Origin → Bool
  | .unix _, .unix _ => true
  | .tcp _ _, .tcp _ _ => true
  | _, _ => false

/-- Modelled from the spec: `utils/origin.py` (the `match` methods of
`UnixSocketOrigin` and `TCPIPOrigin`) is not part of the excerpt; per the spec
the origin-specific discriminator must match: "uid equality for Unix-socket,
address equality for TCP". -/
def originMatch : Origin → Origin → Bool
  | .unix uid1, .unix uid2 => uid1 == uid2
  | .tcp addr1 _, .tcp addr2 _ => addr1 == addr2
  | _, _ => false

/-- The user record owned by a `UserSessionManagerCredentials`: the username
plus a reference to the user's privilege allowlist.  The allowlist itself
(`middlewared/utils/allowlist.py`, outside the excerpt) is modelled as an
environment `AllowEnv` consulted by reference, so that mutation of the
underlying permissions is a change of environment. -/
structure UserRec : Type where
  username : String
  allowRef : Nat
deriving DecidableEq, Repr

mutual

/-- The credential variants of `middlewared/auth.py`.  `base` is the plain
`SessionManagerCredentials` (always valid, always authorized); `userSocket`
and `loginPassword` are the two `UserSessionManagerCredentials` subclasses;
`apiKey` carries a reference to the key's own allowlist; `tokenCred` is
`TokenSessionManagerCredentials` and owns its `Tok`. -/
inductive Credentials : Type where
  | base : Credentials
  | userSocket (u : UserRec) : Credentials
  | loginPassword (u : UserRec) : Credentials
  | rootTcp : Credentials
  | node : Credentials
  | apiKey (ref : Nat) : Credentials
  | tokenCred (t : Tok) : Credentials

/-- The `Token` class: id string, ttl in seconds, free-form attribute mapping,
optional origin-matching constraint, owning parent credentials, and the
`last_used_at` monotonic timestamp.  (The back-reference to the manager is the
registry state itself and is not stored in the token.) -/
inductive Tok : Type where
  | mk (token : String) (ttl : Nat) (attributes : List (String × String))
       (matchOrigin : Option Origin) (parent : Option Credentials)
       (lastUsedAt : Nat) : Tok

end

def Tok.token : Tok → String
  | .mk t _ _ _ _ _ => t

def Tok.ttl : Tok → Nat
  | .mk _ ttl _ _ _ _ => ttl

def Tok.attributes : Tok → List (String × String)
  | .mk _ _ a _ _ _ => a

def Tok.matchOrigin : Tok → Option Origin
  | .mk _ _ _ mo _ _ => mo

def Tok.parent : Tok → Option Credentials
  | .mk _ _ _ _ p _ => p

def Tok.lastUsedAt : Tok → Nat
  | .mk _ _ _ _ _ l => l

/-- `Token.is_valid`: `time.monotonic() < self.last_used_at + self.ttl`. -/
def Tok.is_valid (now : Nat) (t : Tok) : Bool :=
  now < t.lastUsedAt + t.ttl

/-- `Token.notify_used`: `self.last_used_at = time.monotonic()`. -/
def Tok.notify_used (now : Nat) : Tok → Tok
  | .mk tok ttl a mo p _ => .mk tok ttl a mo p now

/-- The `TokenManager.tokens` dict, keyed by the token string. -/
def TokenStore : Type := String → Option Tok

/-- `TokenManager.create`: builds the token (attributes defaulted to the empty
mapping upstream) and stores it under the freshly generated id, which is
supplied here as the parameter `newId` (entropy generation is external). -/
def tmCreate (tokens : TokenStore) (newId : String) (now : Nat) (ttl : Nat)
    (attributes : List (String × String)) (matchOrigin : Option Origin)
    (parent : Option Credentials) : Tok × TokenStore :=
  let t : Tok := .mk newId ttl attributes matchOrigin parent now
  (t, fun k => if k = newId then some t else tokens k)

/-- `TokenManager.destroy`: `self.tokens.pop(token, None)`. -/
def tmDestroy (tokens : TokenStore) (id : String) : TokenStore :=
  fun k => if k = id then none else tokens k

/-- `TokenManager.get`: returns the token (and the registry afterwards).
Unknown id ⇒ none; known but invalid ⇒ evict (popping `token.token`) and
none; origin-constraint kind or discriminator mismatch ⇒ none without
eviction. -/
def tmGet (tokens : TokenStore) (now : Nat) (tokenId : String) (origin : Origin) :
    Option Tok × TokenStore :=
  match tokens tokenId with
  | none => (none, tokens)
  | some tok =>
    if tok.is_valid now then
      match tok.matchOrigin with
      | none => (some tok, tokens)
      | some mo =>
        if originKindEq mo origin then
          if originMatch mo origin then (some tok, tokens)
          else (none, tokens)
        else (none, tokens)
    else (none, tmDestroy tokens tok.token)

/-- The combined origin-constraint test of `TokenManager.get`: no constraint,
or same kind and matching discriminator. -/
def originOk (t : Tok) (origin : Origin) : Bool :=
  match t.matchOrigin with
  | none => true
  | some mo => originKindEq mo origin && originMatch mo origin

/-- Allowlist environment: resolves an allowlist reference and decides
`authorize(method, resource)` for it.  Mutating a user's privilege allowlist
is modelled as evaluating under a different environment. -/
def AllowEnv : Type := Nat → String → String → Bool

/-- `authorize(method, resource)` per credential variant: the base variant
always authorizes, user-type variants consult their allowlist, the API-key
variant consults the key's allowlist, and `TokenSessionManagerCredentials`
delegates to `self.token.parent_credentials.authorize(method, resource)`.
(A token issued while authenticated always has a parent; the source would
raise on a `None` parent, modelled here as a denial.) -/
def authorize (env : AllowEnv) : Credentials → String → String → Bool
  | .base, _, _ => true
  | .userSocket u, m, r => env u.allowRef m r
  | .loginPassword u, m, r => env u.allowRef m r
  | .rootTcp, _, _ => true
  | .node, _, _ => true
  | .apiKey ref, m, r => env ref m r
  | .tokenCred (.mk _ _ _ _ (some p) _), m, r => authorize env p m r
  | .tokenCred (.mk _ _ _ _ none _), _, _ => false

/-- `Token.root_credentials` unwrap step, structurally on the (acyclic)
credential chain: a `TokenSessionManagerCredentials` is unwrapped to its
token's parent, `None` ends the walk with none, anything else is returned. -/
def root_credentials_from : Credentials → Option Credentials
  | .tokenCred (.mk _ _ _ _ op _) =>
    match op with
    | none => none
    | some p => root_credentials_from p
  | c => some c

/-- `Token.root_credentials`: start from `self.parent_credentials` and loop. -/
def Tok.root_credentials (t : Tok) : Option Credentials :=
  match t.parent with
  | none => none
  | some p => root_credentials_from p

/-- Is the credential a `TokenSessionManagerCredentials`? -/
def isTokenCred : Credentials → Bool
  | .tokenCred _ => true
  | _ => false

/-- The connection ("app") object as the session machinery sees it: its
transport origin, its `authenticated` flag and its
`authenticated_credentials`.  Its `session_id` is the key under which it is
stored in the world. -/
structure Conn : Type where
  origin : Origin
  authenticated : Bool
  authCreds : Option Credentials

/-- A `Session`: the current (mutable) credentials and the monotonic creation
timestamp.  `session.app` is the connection stored under the same id. -/
structure Session : Type where
  credentials : Credentials
  created_at : Nat

inductive EventKind : Type where
  | added
  | removed
deriving DecidableEq, Repr

/-- One `send_event("auth.sessions", kind, ...)` emission, recording the
session id it carried. -/
structure Event : Type where
  kind : EventKind
  sessionId : String

/-- The process-wide state: connections and sessions keyed by session id, the
token registry, and the trace of emitted `auth.sessions` events. -/
structure World : Type where
  conns : List (String × Conn)
  sessions : List (String × Session)
  tokens : TokenStore
  events : List Event

/-- Association-list lookup by key (a Python dict access). -/
def alookup (cid : String) : List (String × α) → Option α
  | [] => none
  | p :: ps => if p.1 = cid then some p.2 else alookup cid ps

/-- In-place update of the value stored under `cid` (mutating the object a
dict key points at). -/
def updMap (l : List (String × α)) (cid : String) (f : α → α) : List (String × α) :=
  l.map fun p => if p.1 = cid then (p.1, f p.2) else p

/-- Dict assignment `d[cid] = v`: replace if present, append otherwise. -/
def dictInsert (l : List (String × α)) (cid : String) (v : α) : List (String × α) :=
  if (alookup cid l).isSome then updMap l cid (fun _ => v) else l ++ [(cid, v)]

/-- Dict `pop`: drop the entry stored under `cid`, if any. -/
def apop (l : List (String × α)) (cid : String) : List (String × α) :=
  l.filter fun p => decide (p.1 ≠ cid)

/-- `is_internal_session`: the connection's origin is a uid-0 Unix-socket
peer, or its `authenticated_credentials` is of root-TCP-socket or TrueNAS-node
type. -/
def isInternalConn (c : Conn) : Bool :=
  (match c.origin with
   | .unix 0 => true
   | _ => false) ||
  (match c.authCreds with
   | some .rootTcp => true
   | some .node => true
   | _ => false)

/-- `TokenSessionManagerCredentials.logout` destroys the backing token; every
other variant's `logout` has no registry effect. -/
def credLogout (tokens : TokenStore) : Credentials → TokenStore
  | .tokenCred t => tmDestroy tokens t.token
  | _ => tokens

/-- `SessionManager.login(app, credentials)`: if the app is already
authenticated, replace the stored session's credentials and the app's
`authenticated_credentials` in place; otherwise create the session, mark the
app authenticated, and emit an "ADDED" `auth.sessions` event unless the new
session is internal.  (The unknown-connection branch is unreachable: the RPC
framework always supplies a live app object.) -/
def loginW (w : World) (cid : String) (creds : Credentials) (now : Nat) : World :=
  match alookup cid w.conns with
  | none => w
  | some conn =>
    if conn.authenticated then
      { w with
        sessions := updMap w.sessions cid (fun s => { s with credentials := creds }),
        conns := updMap w.conns cid (fun c => { c with authCreds := some creds }) }
    else
      let conn2 : Conn := { conn with authenticated := true, authCreds := some creds }
      let session : Session := { credentials := creds, created_at := now }
      let w2 : World :=
        { w with
          sessions := dictInsert w.sessions cid session,
          conns := updMap w.conns cid (fun _ => conn2) }
      if isInternalConn conn2 then w2
      else { w2 with events := w2.events ++ [⟨.added, cid⟩] }

/-- `SessionManager.logout(app)`: pop the session; if one existed, run the
credentials' `logout` hook and emit "REMOVED" unless internal; in all cases
clear the app's `authenticated` flag. -/
def logoutW (w : World) (cid : String) : World :=
  match alookup cid w.conns with
  | none => w
  | some conn =>
    let base : World :=
      { w with conns := updMap w.conns cid (fun c => { c with authenticated := false }) }
    match alookup cid w.sessions with
    | none => base
    | some session =>
      { base with
        sessions := apop w.sessions cid,
        tokens := credLogout w.tokens session.credentials,
        events :=
          if isInternalConn conn then w.events
          else w.events ++ [⟨.removed, cid⟩] }

/-- One row of `AuthService.sessions`: the session id, its `internal` flag and
its creation time (the remaining fields — origin string, credential label and
dump — do not bear on the claims verified here). -/
structure SessionEntry : Type where
  id : String
  internal : Bool
  created_at : Nat

/-- Stable insertion into a list sorted by ascending creation time. -/
def insertByCreated (e : SessionEntry) : List SessionEntry → List SessionEntry
  | [] => [e]
  | x :: xs =>
    if e.created_at ≤ x.created_at then e :: x :: xs
    else x :: insertByCreated e xs

/-- Sort session entries by ascending creation time (the
`sorted(..., key=lambda t: t[1].created_at)` of `AuthService.sessions`). -/
def sortByCreated : List SessionEntry → List SessionEntry
  | [] => []
  | x :: xs => insertByCreated x (sortByCreated xs)

/-- `AuthService.sessions` (unfiltered): one entry per registered session,
with `internal` computed by `is_internal_session`, ordered by creation time. -/
def sessionsListing (w : World) : List SessionEntry :=
  sortByCreated <| w.sessions.map fun p =>
    { id := p.1,
      internal :=
        match alookup p.1 w.conns with
        | some c => isInternalConn c
        | none => false,
      created_at := p.2.created_at }

/-- External collaborators of `AuthService.login`: the account store
(`auth.authenticate`), the two-factor configuration and the OTP verifier. -/
structure AuthEnv : Type where
  authenticate : String → String → Option UserRec
  twofactorEnabled : Bool
  verifyOtp : Option String → Bool

/-- `AuthService.login(app, username, password, otp_token)`: authenticate the
username/password; when 2FA is enabled, always run `auth.twofactor.verify`
(even on a failed password check, to prevent timing attacks) and discard the
user on OTP failure; on a surviving user, `session_manager.login` with a
`LoginPasswordSessionManagerCredentials`.  Returns the boolean result, the new
world, and whether the OTP verifier was invoked. -/
def authLogin (env : AuthEnv) (w : World) (cid : String) (username password : String)
    (otp : Option String) (now : Nat) : Bool × World × Bool :=
  let user0 := env.authenticate username password
  let user := if env.twofactorEnabled then
                if env.verifyOtp otp then user0 else none
              else user0
  match user with
  | some u => (true, loginW w cid (.loginPassword u) now, env.twofactorEnabled)
  | none => (false, w, env.twofactorEnabled)

/-- `AuthService.login_with_token(app, token)`: resolve via
`TokenManager.get` with the app's origin (`some false` on failure — Python
`False`); a resolved token carrying non-empty attributes makes the function
return Python `None`, embedded as `Option.none`; otherwise log in with a
token-derived credential and return `some true`.  (The unknown-connection
branch is unreachable: the RPC framework always supplies a live app.) -/
def loginWithToken (w : World) (cid : String) (tokenId : String) (now : Nat) :
    Option Bool × World :=
  match alookup cid w.conns with
  | none => (some false, w)
  | some conn =>
    let res := tmGet w.tokens now tokenId conn.origin
    let w1 : World := { w with tokens := res.2 }
    match res.1 with
    | none => (some false, w1)
    | some tok =>
      if !tok.attributes.isEmpty then (none, w1)
      else (some true, loginW w1 cid (.tokenCred tok) now)

/-- `AuthService.terminate_session(id)`: `some false` when no session has
that id; otherwise `await session.app.response.close()` is issued (second
component records that the transport close was requested) and the function
body ends without a `return`, i.e. Python returns `None` (`Option.none`). -/
def terminateSession (w : World) (id : String) : Option Bool × Bool :=
  match alookup id w.sessions with
  | none => (some false, false)
  | some _ => (none, true)

/-- `AuthService.get_token(token_id)`: a plain dict access on the registry —
return the stored token's attribute mapping, or `None` on a `KeyError`.  No
validity or origin check is performed. -/
def getToken (tokens : TokenStore) (tokenId : String) : Option (List (String × String)) :=
  (tokens tokenId).map Tok.attributes

/-- Heap-reference view of a parent credential, for analysing the raw
`while True` loop of `Token.root_credentials` under mutable-reference
semantics (a `parent_credentials` field can be reassigned after construction,
so a reference cycle is expressible even though ordinary construction never
builds one): `tokenRef tid` is a `TokenSessionManagerCredentials` wrapping
the token with id `tid`, and `real` is any non-token credential. -/
inductive PCred : Type where
  | tokenRef (tid : String)
  | real
deriving DecidableEq, Repr

/-- Running the `while True` loop of `Token.root_credentials` for at most
`fuel` iterations over the heap `parentOf` (mapping a token id to the
`parent_credentials` reference of that token).  `some r` means the loop
returned `r`; `none` means the loop is still running after `fuel`
iterations.  The source loop carries no iteration bound or cycle check. -/
def rcLoopFuel (parentOf : String → Option PCred) :
    Nat → Option PCred → Option (Option PCred)
  | 0, _ => none
  | n + 1, some (.tokenRef tid) => rcLoopFuel parentOf n (parentOf tid)
  | _ + 1, none => some none
  | _ + 1, some .real => some (some .real)

/-- The loop of `Token.root_credentials` terminates on this heap and start
reference: some iteration count makes it return. -/
def rcTerminates (parentOf : String → Option PCred) (start : Option PCred) : Prop :=
  ∃ n r, rcLoopFuel parentOf n start = some r

/-- A one-token reference cycle: the token `t` has as parent a token-derived
credential wrapping `t` itself. -/
def cyclicParent : String → Option PCred := fun tid =>
  if tid = "t" then some (.tokenRef "t") else none

/-! ### Association-list lemmas -/

theorem alookup_updMap (l : List (String × α)) (cid : String) (f : α → α) :
    alookup cid (updMap l cid f) = (alookup cid l).map f := by
  induction l with
  | nil => rfl
  | cons p ps ih =>
    by_cases h : p.1 = cid <;>
      simp only [updMap, List.map_cons, alookup, h, if_true, if_false] <;>
      simp only [updMap] at ih <;> simp [h, ih]

theorem alookup_updMap_ne (l : List (String × α)) (cid k : String) (f : α → α)
    (h : k ≠ cid) : alookup k (updMap l cid f) = alookup k l := by
  induction l with
  | nil => rfl
  | cons p ps ih =>
    by_cases hp : p.1 = cid
    · have hck : ¬ cid = k := fun hck => h hck.symm
      simp [updMap, alookup, hp, hck]
      simpa [updMap] using ih
    · simp only [updMap, List.map_cons, hp, if_false, alookup]
      by_cases hk : p.1 = k
      · simp [hk]
      · simp only [hk, if_false]
        simpa [updMap] using ih

theorem keys_updMap (l : List (String × α)) (cid : String) (f : α → α) :
    (updMap l cid f).map Prod.fst = l.map Prod.fst := by
  induction l with
  | nil => rfl
  | cons p ps ih =>
    by_cases h : p.1 = cid <;> simp [updMap, h] at * <;> simpa [updMap] using ih

theorem alookup_append (l1 l2 : List (String × α)) (k : String) :
    alookup k (l1 ++ l2) =
      match alookup k l1 with
      | some v => some v
      | none => alookup k l2 := by
  induction l1 with
  | nil => rfl
  | cons p ps ih => by_cases h : p.1 = k <;> simp [alookup, h, ih]

theorem alookup_dictInsert_self (l : List (String × α)) (cid : String) (v : α) :
    alookup cid (dictInsert l cid v) = some v := by
  unfold dictInsert
  by_cases h : (alookup cid l).isSome
  · rw [if_pos h, alookup_updMap]
    rcases Option.isSome_iff_exists.mp h with ⟨w, hw⟩
    simp [hw]
  · rw [if_neg h, alookup_append]
    have hn := Option.not_isSome_iff_eq_none.mp h
    simp [hn, alookup]

theorem alookup_apop_self (l : List (String × α)) (cid : String) :
    alookup cid (apop l cid) = none := by
  induction l with
  | nil => rfl
  | cons p ps ih =>
    by_cases h : p.1 = cid <;> simp [apop, alookup, h] at * <;> simpa [apop] using ih

theorem mem_insertByCreated (e x : SessionEntry) (l : List SessionEntry) :
    x ∈ insertByCreated e l ↔ x = e ∨ x ∈ l := by
  induction l with
  | nil => simp [insertByCreated]
  | cons y ys ih =>
    by_cases h : e.created_at ≤ y.created_at
    · simp [insertByCreated, h]
    · simp [insertByCreated, h, ih]
      tauto

theorem mem_sortByCreated (x : SessionEntry) (l : List SessionEntry) :
    x ∈ sortByCreated l ↔ x ∈ l := by
  induction l with
  | nil => simp [sortByCreated]
  | cons y ys ih =>
    simp [sortByCreated, mem_insertByCreated, ih]

theorem rootFrom_not_token :
    ∀ (c r : Credentials), root_credentials_from c = some r → isTokenCred r = false
  | .base, r, h => by
    simp [root_credentials_from] at h
    simp [← h, isTokenCred]
  | .userSocket u, r, h => by
    simp [root_credentials_from] at h
    simp [← h, isTokenCred]
  | .loginPassword u, r, h => by
    simp [root_credentials_from] at h
    simp [← h, isTokenCred]
  | .rootTcp, r, h => by
    simp [root_credentials_from] at h
    simp [← h, isTokenCred]
  | .node, r, h => by
    simp [root_credentials_from] at h
    simp [← h, isTokenCred]
  | .apiKey ref, r, h => by
    simp [root_credentials_from] at h
    simp [← h, isTokenCred]
  | .tokenCred (.mk a b c d none e), r, h => by
    simp [root_credentials_from] at h
  | .tokenCred (.mk a b c d (some p) e), r, h =>
    rootFrom_not_token p r (by simpa [root_credentials_from] using h)

theorem rcLoopFuel_cyclic (n : Nat) :
    rcLoopFuel cyclicParent n (some (.tokenRef "t")) = none := by
  induction n with
  | zero => rfl
  | succ m ih => simpa [rcLoopFuel, cyclicParent] using ih

/-! ### Claim theorems -/

/-- C2: for a token created with time-to-live `ttl`, `is_valid` holds exactly
when the current monotonic time is strictly below `last_used_at + ttl`; it
holds at creation when `ttl > 0`, fails once time reaches or passes
`creation + ttl` with no intervening use, and `notify_used` sets
`last_used_at` to the current time, moving the expiry deadline to
`now + ttl` (sliding idle timeout, not absolute expiry). -/
theorem token_ttl_sliding_window (tokens : TokenStore) (newId : String)
    (now ttl : Nat) (attrs : List (String × String)) (mo : Option Origin)
    (parent : Option Credentials) (t : Tok)
    (ht : t = (tmCreate tokens newId now ttl attrs mo parent).1) :
    (∀ now2, t.is_valid now2 = decide (now2 < t.lastUsedAt + t.ttl)) ∧
    t.lastUsedAt = now ∧ t.ttl = ttl ∧
    (0 < ttl → t.is_valid now = true) ∧
    (∀ now2, now + ttl ≤ now2 → t.is_valid now2 = false) ∧
    (∀ nowU, (t.notify_used nowU).lastUsedAt = nowU ∧
      ∀ now3, (t.notify_used nowU).is_valid now3 = decide (now3 < nowU + ttl)) := by
  subst ht
  refine ⟨fun now2 => rfl, rfl, rfl, ?_, ?_, ?_⟩
  · intro hpos
    simp [tmCreate, Tok.is_valid, Tok.lastUsedAt, Tok.ttl]
    omega
  · intro now2 hle
    simp [tmCreate, Tok.is_valid, Tok.lastUsedAt, Tok.ttl]
    omega
  · intro nowU
    exact ⟨rfl, fun now3 => rfl⟩

/-- Witness for C2: a token created at time 7 with ttl 5 is valid at 7 and
invalid at 12. -/
theorem token_ttl_sliding_window_wit :
    ((tmCreate (fun _ => none) "a" 7 5 [] none none).1.is_valid 7 = true) ∧
    ((tmCreate (fun _ => none) "a" 7 5 [] none none).1.is_valid 12 = false) := by
  have h := token_ttl_sliding_window (fun _ => none) "a" 7 5 [] none none
    ((tmCreate (fun _ => none) "a" 7 5 [] none none).1) rfl
  exact ⟨h.2.2.2.1 (by decide), h.2.2.2.2.1 12 (by decide)⟩

/-- C3: `TokenSessionManagerCredentials.authorize` returns, for every
allowlist environment current at the moment of the call (so also after the
parent credential underlying permissions changed), exactly the result of the
token parent credential `authorize` — nothing is cached. -/
theorem token_authorize_delegates (env : AllowEnv) (t : Tok) (p : Credentials)
    (hp : t.parent = some p) (m r : String) :
    authorize env (.tokenCred t) m r = authorize env p m r := by
  cases t with
  | mk a b c d op e =>
    cases op with
    | none => simp [Tok.parent] at hp
    | some q =>
      simp [Tok.parent] at hp
      subst hp
      simp [authorize]

/-- Witness for C3: a concrete token delegating to a user credential, under
two different allowlist environments (permissions mutated between calls). -/
theorem token_authorize_delegates_wit :
    (authorize (fun _ _ _ => true)
      (.tokenCred (.mk "t3" 600 [] none (some (.userSocket ⟨"alice", 0⟩)) 0)) "m" "r"
      = authorize (fun _ _ _ => true) (.userSocket ⟨"alice", 0⟩) "m" "r") ∧
    (authorize (fun _ _ _ => false)
      (.tokenCred (.mk "t3" 600 [] none (some (.userSocket ⟨"alice", 0⟩)) 0)) "m" "r"
      = authorize (fun _ _ _ => false) (.userSocket ⟨"alice", 0⟩) "m" "r") :=
  ⟨token_authorize_delegates (fun _ _ _ => true)
      (.mk "t3" 600 [] none (some (.userSocket ⟨"alice", 0⟩)) 0)
      (.userSocket ⟨"alice", 0⟩) rfl "m" "r",
   token_authorize_delegates (fun _ _ _ => false)
      (.mk "t3" 600 [] none (some (.userSocket ⟨"alice", 0⟩)) 0)
      (.userSocket ⟨"alice", 0⟩) rfl "m" "r"⟩

/-- C9 counterexample: the `while True` loop of `Token.root_credentials`
carries no iteration bound or cycle check, so on a self-referential parent
chain (a token whose parent credential wraps the token itself, expressible
under mutable-reference semantics) the loop never returns: no fuel makes
`rcLoopFuel` produce a result.  This falsifies the defensively-bounded part
of the claim. -/
theorem root_credentials_no_cycle_bound :
    ¬ rcTerminates cyclicParent (some (.tokenRef "t")) := by
  rintro ⟨n, r, h⟩
  rw [rcLoopFuel_cyclic] at h
  cases h

/-- C9 amended: `Token.root_credentials` walks the parent chain, unwrapping
nested token-derived credentials, and returns the first non-token credential
(or none when the chain ends in none); it terminates on every structurally
finite (acyclic) parent chain, which is the only kind ordinary construction
can build — but the loop has no defensive bound against reference cycles. -/
theorem root_credentials_unwraps (t : Tok) :
    (t.parent = none → t.root_credentials = none) ∧
    (∀ t2, t.parent = some (.tokenCred t2) →
      t.root_credentials = t2.root_credentials) ∧
    (∀ c, t.parent = some c → isTokenCred c = false → t.root_credentials = some c) ∧
    (∀ c, t.root_credentials = some c → isTokenCred c = false) := by
  cases t with
  | mk a b c d op e =>
    refine ⟨?_, ?_, ?_, ?_⟩
    · intro hp
      simp [Tok.parent] at hp
      simp [Tok.root_credentials, Tok.parent, hp]
    · intro t2 hp
      simp [Tok.parent] at hp
      subst hp
      cases t2 with
      | mk a2 b2 c2 d2 op2 e2 =>
        cases op2 <;> simp [Tok.root_credentials, Tok.parent, root_credentials_from]
    · intro cr hp hnt
      simp [Tok.parent] at hp
      subst hp
      cases cr <;> simp_all [Tok.root_credentials, Tok.parent, root_credentials_from,
        isTokenCred]
    · intro cr h
      cases op with
      | none => simp [Tok.root_credentials, Tok.parent] at h
      | some p =>
        simp [Tok.root_credentials, Tok.parent] at h
        exact rootFrom_not_token p cr h

/-- Witness for C9 amended: a token whose parent is the root-TCP credential
resolves to that credential. -/
theorem root_credentials_unwraps_wit :
    (Tok.mk "w" 1 [] none (some .rootTcp) 0).root_credentials = some .rootTcp :=
  (root_credentials_unwraps (.mk "w" 1 [] none (some .rootTcp) 0)).2.2.1
    .rootTcp rfl rfl

/-- C10: `AuthService.get_token` returns the stored attribute mapping for any
id present in the registry with no validity or origin check — an expired but
not yet lazily purged token is still inspectable (even while
`TokenManager.get` would reject it) — and returns none exactly for absent
ids. -/
theorem get_token_no_checks (tokens : TokenStore) (id : String) :
    (∀ tok, tokens id = some tok → getToken tokens id = some tok.attributes) ∧
    (getToken tokens id = none ↔ tokens id = none) ∧
    (∀ tok now origin, tokens id = some tok → tok.is_valid now = false →
      getToken tokens id = some tok.attributes ∧
      (tmGet tokens now id origin).1 = none) := by
  refine ⟨?_, ?_, ?_⟩
  · intro tok h
    simp [getToken, h]
  · simp [getToken]
  · intro tok now origin h hv
    exact ⟨by simp [getToken, h], by simp [tmGet, h, hv]⟩

theorem tmGet_fst_eq (tokens : TokenStore) (now : Nat) (id : String) (origin : Origin) :
    (tmGet tokens now id origin).1 =
      match tokens id with
      | none => none
      | some tok =>
        if tok.is_valid now && originOk tok origin then some tok else none := by
  cases hid : tokens id with
  | none => simp [tmGet, hid]
  | some tok =>
    by_cases hv : tok.is_valid now
    · cases hmo : tok.matchOrigin with
      | none => simp [tmGet, hid, hv, hmo, originOk]
      | some mo =>
        by_cases hk : originKindEq mo origin
        · by_cases hm : originMatch mo origin <;>
            simp [tmGet, hid, hv, hmo, originOk, hk, hm]
        · simp [tmGet, hid, hv, hmo, originOk, hk]
    · simp [tmGet, hid, hv, originOk]

theorem tmGet_snd_eq (tokens : TokenStore) (now : Nat) (id : String) (origin : Origin) :
    (tmGet tokens now id origin).2 =
      match tokens id with
      | none => tokens
      | some tok => if tok.is_valid now then tokens else tmDestroy tokens tok.token := by
  cases hid : tokens id with
  | none => simp [tmGet, hid]
  | some tok =>
    by_cases hv : tok.is_valid now
    · cases hmo : tok.matchOrigin with
      | none => simp [tmGet, hid, hv, hmo]
      | some mo =>
        by_cases hk : originKindEq mo origin
        · by_cases hm : originMatch mo origin <;> simp [tmGet, hid, hv, hmo, hk, hm]
        · simp [tmGet, hid, hv, hmo, hk]
    · simp [tmGet, hid, hv]

/-- C1: `TokenManager.get` hands back the stored token exactly when the id is
a registry key, the token is valid, and any origin constraint matches the
request (same kind and same discriminator); an unknown id gives none; a
known-but-expired token gives none and is evicted, so a second get with the
same id finds no entry; a valid token whose origin constraint mismatches
gives none while leaving the registry unchanged. -/
theorem token_manager_get_spec (tokens : TokenStore) (now : Nat) (id : String)
    (origin : Origin) (hwf : ∀ k t, tokens k = some t → t.token = k) :
    (∀ t, (tmGet tokens now id origin).1 = some t ↔
      (tokens id = some t ∧ t.is_valid now = true ∧ originOk t origin = true)) ∧
    (tokens id = none → tmGet tokens now id origin = (none, tokens)) ∧
    (∀ t, tokens id = some t → t.is_valid now = false →
      (tmGet tokens now id origin).1 = none ∧
      (tmGet tokens now id origin).2 id = none ∧
      tmGet ((tmGet tokens now id origin).2) now id origin =
        (none, (tmGet tokens now id origin).2)) ∧
    (∀ t, tokens id = some t → t.is_valid now = true → originOk t origin = false →
      tmGet tokens now id origin = (none, tokens)) := by
  refine ⟨?_, ?_, ?_, ?_⟩
  · intro t
    rw [tmGet_fst_eq]
    cases hid : tokens id with
    | none => simp
    | some tok =>
      by_cases hcond : tok.is_valid now && originOk tok origin
      · simp only [hcond, if_true]
        constructor
        · intro h
          cases h
          exact ⟨rfl, (Bool.and_eq_true _ _).mp hcond⟩
        · intro ⟨h1, _, _⟩
          cases h1
          rfl
      · simp only [hcond, if_false]
        constructor
        · intro h
          cases h
        · intro ⟨h1, h2, h3⟩
          cases h1
          rw [h2, h3] at hcond
          simp at hcond
  · intro hid
    simp [tmGet, hid]
  · intro t hid hv
    have hfst : (tmGet tokens now id origin).1 = none := by
      rw [tmGet_fst_eq, hid]
      simp [hv]
    have htok : t.token = id := hwf id t hid
    have hsnd : (tmGet tokens now id origin).2 = tmDestroy tokens t.token := by
      rw [tmGet_snd_eq, hid]
      simp [hv]
    have hgone : (tmGet tokens now id origin).2 id = none := by
      rw [hsnd, htok]
      simp [tmDestroy]
    refine ⟨hfst, hgone, ?_⟩
    generalize hS : (tmGet tokens now id origin).2 = tokens2 at hgone
    simp [tmGet, hgone]
  · intro t hid hv hok
    have hfst : (tmGet tokens now id origin).1 = none := by
      rw [tmGet_fst_eq, hid]
      simp [hv, hok]
    have hsnd : (tmGet tokens now id origin).2 = tokens := by
      rw [tmGet_snd_eq, hid]
      simp [hv]
    calc tmGet tokens now id origin
        = ((tmGet tokens now id origin).1, (tmGet tokens now id origin).2) := rfl
      _ = (none, tokens) := by rw [hfst, hsnd]

/-- Witness for C1: a valid origin-locked token is returned for the matching
Unix-socket origin. -/
theorem token_manager_get_spec_wit :
    (tmGet (fun k => if k = "a" then some (.mk "a" 10 [] (some (.unix 5)) (some .base) 0)
        else none) 3 "a" (.unix 5)).1
      = some (.mk "a" 10 [] (some (.unix 5)) (some .base) 0) := by
  have h := token_manager_get_spec
    (fun k => if k = "a" then some (.mk "a" 10 [] (some (.unix 5)) (some .base) 0) else none)
    3 "a" (.unix 5) ?hwf
  case hwf =>
    intro k t ht
    by_cases hk : k = "a"
    · subst hk
      simp at ht
      rw [← ht]
      rfl
    · simp [hk] at ht
  exact (h.1 (.mk "a" 10 [] (some (.unix 5)) (some .base) 0)).mpr
    ⟨by simp, by decide, by decide⟩

/-- C4: a session is classified internal exactly when its connection origin
is a uid-0 Unix socket or its credential is of root-TCP-socket or node type;
any login or logout step whose session is internal at that moment leaves the
auth.sessions event trace unchanged (no ADDED, no REMOVED — and a re-login
never emits at all), and internal sessions never appear in a session listing
filtered to exclude internal entries. -/
theorem internal_sessions_invisible :
    (∀ c : Conn, isInternalConn c = true ↔
      (c.origin = .unix 0 ∨ c.authCreds = some .rootTcp ∨ c.authCreds = some .node)) ∧
    (∀ w cid creds now conn, alookup cid w.conns = some conn →
      conn.authenticated = false →
      isInternalConn { conn with authenticated := true, authCreds := some creds } = true →
      (loginW w cid creds now).events = w.events) ∧
    (∀ w cid creds now conn, alookup cid w.conns = some conn →
      conn.authenticated = true →
      (loginW w cid creds now).events = w.events) ∧
    (∀ w cid conn, alookup cid w.conns = some conn →
      isInternalConn conn = true →
      (logoutW w cid).events = w.events) ∧
    (∀ w e, e ∈ (sessionsListing w).filter (fun x => !x.internal) →
      ∀ c, alookup e.id w.conns = some c → isInternalConn c = false) := by
  refine ⟨?_, ?_, ?_, ?_, ?_⟩
  · intro c
    obtain ⟨o, auth, ac⟩ := c
    simp only [isInternalConn, Bool.or_eq_true]
    constructor
    · rintro (h | h)
      · left
        cases o with
        | unix uid =>
          cases uid with
          | zero => rfl
          | succ n => simp at h
        | tcp a p => simp at h
      · right
        cases ac with
        | none => simp at h
        | some cr => cases cr <;> simp_all
    · rintro (h | h | h) <;> simp [h]
  · intro w cid creds now conn hconn hauth hint
    simp [loginW, hconn, hauth, hint]
  · intro w cid creds now conn hconn hauth
    simp [loginW, hconn, hauth]
  · intro w cid conn hconn hint
    cases hs : alookup cid w.sessions with
    | none => simp [logoutW, hconn, hs]
    | some session => simp [logoutW, hconn, hs, hint]
  · intro w e he c hc
    rw [List.mem_filter] at he
    obtain ⟨hmem, hni⟩ := he
    simp only [sessionsListing] at hmem
    rw [mem_sortByCreated, List.mem_map] at hmem
    obtain ⟨p, hp, rfl⟩ := hmem
    simp only [Bool.not_eq_true'] at hni
    simp only at hc
    rw [hc] at hni
    exact hni

/-- A fresh uid-0 Unix-socket connection with no session yet. -/
def rootSocketConn : Conn :=
  { origin := .unix 0, authenticated := false, authCreds := none }

/-- A world holding only the fresh uid-0 Unix-socket connection. -/
def rootSocketWorld : World :=
  { conns := [("i", rootSocketConn)], sessions := [], tokens := fun _ => none,
    events := [] }

/-- Witness for C4: a fresh login of a uid-0 Unix-socket connection emits no
auth.sessions event. -/
theorem internal_sessions_invisible_wit :
    (loginW rootSocketWorld "i" .base 0).events = [] := by
  have h := internal_sessions_invisible
  exact h.2.1 rootSocketWorld "i" .base 0 rootSocketConn
    (by simp [rootSocketWorld, alookup]) rfl rfl

/-- C5: a second login on an already-authenticated connection replaces the
stored credential in place — the registry keeps exactly the same session-id
keys, the session keeps its creation timestamp and now holds the new
credential, and entries for other connections are untouched; on both the
fresh-login path and the re-login path the connection ends with its
authenticated flag set and the new credential stored. -/
theorem relogin_replaces_in_place (w : World) (cid : String) (creds : Credentials)
    (now : Nat) (conn : Conn) (hconn : alookup cid w.conns = some conn) :
    (∀ session, conn.authenticated = true → alookup cid w.sessions = some session →
      ((loginW w cid creds now).sessions.map Prod.fst = w.sessions.map Prod.fst) ∧
      (alookup cid (loginW w cid creds now).sessions =
        some { credentials := creds, created_at := session.created_at }) ∧
      (∀ k, k ≠ cid →
        alookup k (loginW w cid creds now).sessions = alookup k w.sessions)) ∧
    (∃ c2, alookup cid (loginW w cid creds now).conns = some c2 ∧
      c2.authenticated = true ∧ c2.authCreds = some creds) := by
  constructor
  · intro session hauth hsess
    have hL : (loginW w cid creds now).sessions =
        updMap w.sessions cid (fun s => { s with credentials := creds }) := by
      simp [loginW, hconn, hauth]
    refine ⟨?_, ?_, ?_⟩
    · rw [hL, keys_updMap]
    · rw [hL, alookup_updMap, hsess]
      cases session
      rfl
    · intro k hk
      rw [hL, alookup_updMap_ne _ _ _ _ hk]
  · by_cases hauth : conn.authenticated = true
    · refine ⟨{ conn with authCreds := some creds }, ?_, hauth, rfl⟩
      have hc : (loginW w cid creds now).conns =
          updMap w.conns cid (fun c => { c with authCreds := some creds }) := by
        simp [loginW, hconn, hauth]
      rw [hc, alookup_updMap, hconn]
      rfl
    · have hauth2 : conn.authenticated = false := by
        cases h2 : conn.authenticated
        · rfl
        · exact absurd h2 hauth
      refine ⟨{ conn with authenticated := true, authCreds := some creds }, ?_, rfl, rfl⟩
      have hc : (loginW w cid creds now).conns =
          updMap w.conns cid
            (fun _ => { conn with authenticated := true, authCreds := some creds }) := by
        by_cases hint :
            isInternalConn { conn with authenticated := true, authCreds := some creds } <;>
          simp [loginW, hconn, hauth2, hint]
      rw [hc, alookup_updMap, hconn]
      rfl

/-- An authenticated TCP connection. -/
def authedTcpConn : Conn :=
  { origin := .tcp "1.2.3.4" 10, authenticated := true, authCreds := some .base }

/-- The session of the authenticated TCP connection, created at time 42. -/
def authedTcpSession : Session :=
  { credentials := .base, created_at := 42 }

/-- A world with one authenticated connection and its session. -/
def authedTcpWorld : World :=
  { conns := [("c", authedTcpConn)], sessions := [("c", authedTcpSession)],
    tokens := fun _ => none, events := [] }

/-- Witness for C5: re-login with a password credential on an authenticated
connection keeps the creation timestamp 42 and stores the new credential. -/
theorem relogin_replaces_in_place_wit :
    alookup "c" (loginW authedTcpWorld "c" (.loginPassword ⟨"bob", 0⟩) 99).sessions =
      some { credentials := .loginPassword ⟨"bob", 0⟩, created_at := 42 } := by
  have h := relogin_replaces_in_place authedTcpWorld "c" (.loginPassword ⟨"bob", 0⟩) 99
    authedTcpConn (by simp [authedTcpWorld, alookup])
  exact (h.1 authedTcpSession rfl (by simp [authedTcpWorld, alookup])).2.1

/-- C6: with two-factor enabled the OTP verifier is invoked regardless of
the password-check outcome (also when `auth.authenticate` returned no user),
and a failed OTP forces the overall result false even when the
username/password was correct; the login returns true — installing a
password-login credential through `SessionManager.login` — exactly when the
password check passes and, with 2FA enabled, the OTP check passes too. -/
theorem login_password_twofactor (env : AuthEnv) (w : World) (cid : String)
    (username password : String) (otp : Option String) (now : Nat) :
    (env.twofactorEnabled = true →
      (authLogin env w cid username password otp now).2.2 = true) ∧
    (env.twofactorEnabled = true → env.verifyOtp otp = false →
      (authLogin env w cid username password otp now).1 = false) ∧
    ((authLogin env w cid username password otp now).1 = true ↔
      ((env.authenticate username password).isSome ∧
        (env.twofactorEnabled = true → env.verifyOtp otp = true))) ∧
    (∀ urec, env.authenticate username password = some urec →
      (env.twofactorEnabled = true → env.verifyOtp otp = true) →
      (authLogin env w cid username password otp now).1 = true ∧
      (authLogin env w cid username password otp now).2.1 =
        loginW w cid (.loginPassword urec) now) ∧
    ((authLogin env w cid username password otp now).1 = false →
      (authLogin env w cid username password otp now).2.1 = w) := by
  cases hen : env.twofactorEnabled with
  | false =>
    cases hau : env.authenticate username password with
    | none => simp [authLogin, hen, hau]
    | some urec => simp [authLogin, hen, hau]
  | true =>
    cases hv : env.verifyOtp otp with
    | false =>
      cases hau : env.authenticate username password with
      | none => simp [authLogin, hen, hau, hv]
      | some urec => simp [authLogin, hen, hau, hv]
    | true =>
      cases hau : env.authenticate username password with
      | none => simp [authLogin, hen, hau, hv]
      | some urec => simp [authLogin, hen, hau, hv]

/-- A login environment with 2FA enabled, a correct password for user bob,
and an OTP verifier that rejects everything. -/
def badOtpEnv : AuthEnv :=
  { authenticate := fun _ _ => some ⟨"bob", 0⟩, twofactorEnabled := true,
    verifyOtp := fun _ => false }

/-- Witness for C6: correct password but wrong OTP gives overall false, and
the OTP verifier was invoked. -/
theorem login_password_twofactor_wit :
    (authLogin badOtpEnv rootSocketWorld "i" "bob" "pw" (some "000000") 0).1 = false ∧
    (authLogin badOtpEnv rootSocketWorld "i" "bob" "pw" (some "000000") 0).2.2 = true := by
  have h := login_password_twofactor badOtpEnv rootSocketWorld "i" "bob" "pw"
    (some "000000") 0
  exact ⟨h.2.1 rfl rfl, h.1 rfl⟩

/-- A data-carrying token: registered, valid, no origin lock, but carrying a
non-empty attributes mapping. -/
def attrsTok : Tok := .mk "tok7" 600 [("filename", "f")] none (some .base) 0

/-- An unauthenticated TCP connection for redeeming the data-carrying
token. -/
def plainTcpConn : Conn :=
  { origin := .tcp "10.0.0.1" 1234, authenticated := false, authCreds := none }

/-- A world with the data-carrying token and one unauthenticated TCP
connection: the failing input for C7. -/
def attrsWorld : World :=
  { conns := [("c", plainTcpConn)],
    sessions := [],
    tokens := fun k => if k = "tok7" then some attrsTok else none,
    events := [] }

/-- C7: `login_with_token` on a registered valid token whose attributes
mapping is non-empty does reject the login without calling
`SessionManager.login` (no session is created, no event emitted) — but it
reports the rejection as Python None, a third value distinct from the
boolean false that the declared Bool return type and the claim promise. -/
theorem login_with_token_attrs_gives_none :
    (loginWithToken attrsWorld "c" "tok7" 0).1 = none ∧
    (loginWithToken attrsWorld "c" "tok7" 0).1 ≠ some false ∧
    (loginWithToken attrsWorld "c" "tok7" 0).2.sessions = [] ∧
    (loginWithToken attrsWorld "c" "tok7" 0).2.events = [] := by
  refine ⟨rfl, by decide, rfl, rfl⟩

/-- The connection of the single registered session. -/
def oneSessionConn : Conn :=
  { origin := .tcp "9.9.9.9" 1, authenticated := true, authCreds := some .base }

/-- A world with a single registered session under id s. -/
def oneSessionWorld : World :=
  { conns := [("s", oneSessionConn)],
    sessions := [("s", { credentials := .base, created_at := 0 })],
    tokens := fun _ => none,
    events := [] }

/-- C8: `terminate_session` does return false for an unknown session id, but
for an existing session it requests the transport close and then falls off
the end of the function: Python returns None, not the boolean true that the
declared Bool return type and the claim promise. -/
theorem terminate_session_returns_none :
    terminateSession oneSessionWorld "s" = (none, true) ∧
    terminateSession oneSessionWorld "missing" = (some false, false) ∧
    (none : Option Bool) ≠ some true := by
  refine ⟨rfl, rfl, by decide⟩

/-- Witness for C10: an expired token (created at 0 with ttl 5, inspected at
time 10) is still returned by `get_token`. -/
theorem get_token_no_checks_wit :
    getToken (fun k => if k = "x" then some (.mk "x" 5 [("a", "b")] none none 0) else none)
      "x" = some [("a", "b")] := by
  have h := get_token_no_checks
    (fun k => if k = "x" then some (.mk "x" 5 [("a", "b")] none none 0) else none) "x"
  exact (h.2.2 (.mk "x" 5 [("a", "b")] none none 0) 10 (.unix 0) (by simp) (by decide)).1

end Middleware
